/-
  Verification of the ecs-service-image-updater core pipeline.

  The definitions below are a shallow embedding of the JavaScript module
  (`index.js`, current snapshot: AWS SDK v3 client, `async.waterfall`
  orchestrator) together with the deployment-stability waiter module.

  Modeling conventions:
  - JavaScript values thrown with `throw new Error(msg)` / passed to
    callbacks are modeled by the `JsError` type; reading an undeclared
    variable in strict mode is modeled by `JsError.referenceError`.
  - Remote AWS calls are modeled by an `ECSRemote` record of response
    functions; every function that performs remote calls returns, next to
    its `Except` result, the list of `RemoteCall` events it issued, so that
    "performs no network call" is expressible as an empty (or call-free)
    trace.  For the two lookups issued through `Promise.all` the trace
    lists the family lookup's calls first, matching the array order of the
    source; each lookup performs at most one call.
  - `async.waterfall` / promise chains are modeled as short-circuiting
    sequential composition in the `Except` monad.
  - `_.clone` is a *shallow* clone: the clone shares the
    `containerDefinitions` array (and the container objects inside it)
    with the original document.  `containersAfterUpdateCall` below exposes
    the contents of that shared array after `updateTaskDefinitionImage`
    returns or throws, which is exactly what the original document's
    `containerDefinitions` field holds afterwards.
-/
import Mathlib

/-- A JavaScript error value: `error` is `new Error(message)`;
`referenceError n` is the `ReferenceError` raised by reading the
undeclared variable `n` in strict mode. -/
inductive JsError where
  | error (message : String)
  | referenceError (varName : String)
deriving Repr, DecidableEq

instance exceptDecEq {ε α : Type} [DecidableEq ε] [DecidableEq α] :
    DecidableEq (Except ε α)
  | Except.ok x, Except.ok y =>
      if h : x = y then isTrue (by rw [h]) else isFalse (by intro hc; cases hc; exact h rfl)
  | Except.ok _, Except.error _ => isFalse (by intro hc; cases hc)
  | Except.error _, Except.ok _ => isFalse (by intro hc; cases hc)
  | Except.error e, Except.error f =>
      if h : e = f then isTrue (by rw [h]) else isFalse (by intro hc; cases hc; exact h rfl)

/-- The error thrown by `updateTaskDefinitionImage` when a requested
container name is absent: `new Error('Could not find container name
"<n>" in existing task definition')`. -/
def containerNotFoundError (n : String) : JsError :=
  JsError.error ("Could not find container name \"" ++ n ++ "\" in existing task definition")

/-- One entry of `containerDefinitions`: a `name`, an `image`, and the
remaining fields of the container object (carried verbatim, modeled as an
association list). -/
structure ContainerDefinition where
  name : String
  image : String
  otherFields : List (String × String)
deriving Repr, DecidableEq

/-- A task-definition document.  The nine auxiliary fields are the ones on
the `_.pick` allow-list of `updateTaskDefinitionImage`; every other field
of the fetched document (`taskDefinitionArn`, `status`, `revision`, ...)
is modeled by the `otherFields` association list. -/
structure TaskDefinition where
  containerDefinitions : List ContainerDefinition
  executionRoleArn : Option String
  family : Option String
  networkMode : Option String
  placementConstraints : Option String
  taskRoleArn : Option String
  volumes : Option String
  requiresCompatibilities : Option String
  cpu : Option String
  memory : Option String
  otherFields : List (String × String)
deriving Repr, DecidableEq

/-- `_.pick(newTaskDefinition, ['containerDefinitions', 'executionRoleArn',
'family', 'networkMode', 'placementConstraints', 'taskRoleArn', 'volumes',
'requiresCompatibilities', 'cpu', 'memory'])`: keeps the container specs
and the nine auxiliary fields, drops every other field. -/
def pickPublishFields (td : TaskDefinition) : TaskDefinition :=
  { td with otherFields := [] }

/-- `_.findIndex(containerDefinitions, cd => cd.name === containerName) !== -1`:
does some container of the list have the given name? -/
def hasContainerNamed (cds : List ContainerDefinition) (n : String) : Bool :=
  cds.any (fun cd => cd.name == n)

/-- `containerDefinitions[_.findIndex(..., cd => cd.name === n)].image = image`:
overwrite the image of the first container whose name is `n` (the index
returned by `findIndex` is the first match). -/
def setImageFirst (n : String) (image : String) :
    List ContainerDefinition → List ContainerDefinition
  | [] => []
  | cd :: rest =>
    if cd.name = n then { cd with image := image } :: rest
    else cd :: setImageFirst n image rest

/-- The `containerNames.forEach(...)` loop of `updateTaskDefinitionImage`:
processes the requested names left to right over the (shared, mutable)
container array; on the first name with no matching container it throws,
and the error carries the array contents at the moment of the throw
(mutations made for earlier names have already happened). -/
def updateContainersGo (image : String) :
    List String → List ContainerDefinition →
      Except (String × List ContainerDefinition) (List ContainerDefinition)
  | [], cds => Except.ok cds
  | n :: rest, cds =>
    if hasContainerNamed cds n then
      updateContainersGo image rest (setImageFirst n image cds)
    else
      Except.error (n, cds)

/-- `updateTaskDefinitionImage(taskDefinition, containerNames, image)`:
shallow-clones the document, overwrites the image of each requested
container on the shared container array, throwing on the first missing
name, and on success returns the `_.pick` allow-listed document. -/
def updateTaskDefinitionImage (td : TaskDefinition) (containerNames : List String)
    (image : String) : Except JsError TaskDefinition :=
  match updateContainersGo image containerNames td.containerDefinitions with
  | Except.error (n, _) => Except.error (containerNotFoundError n)
  | Except.ok cds => Except.ok (pickPublishFields { td with containerDefinitions := cds })

/-- Because `_.clone` is shallow, `newTaskDefinition.containerDefinitions`
is the very array of the input document; this is its contents once
`updateTaskDefinitionImage` has returned or thrown — i.e. what the
original document's `containerDefinitions` holds after the call. -/
def containersAfterUpdateCall (td : TaskDefinition) (containerNames : List String)
    (image : String) : List ContainerDefinition :=
  match updateContainersGo image containerNames td.containerDefinitions with
  | Except.error (_, cds) => cds
  | Except.ok cds => cds

/-- Pointwise effect of processing one requested name `n`: the container
gets the new image exactly when its name is `n`. -/
def applyImageIfNamed (n : String) (image : String) (cd : ContainerDefinition) :
    ContainerDefinition :=
  if cd.name = n then { cd with image := image } else cd

/-- Pointwise effect of processing a list `S` of requested names: the
container gets the new image exactly when its name is in `S`. -/
def applyImageIfMem (S : List String) (image : String) (cd : ContainerDefinition) :
    ContainerDefinition :=
  if cd.name ∈ S then { cd with image := image } else cd

lemma applyImageIfNamed_name (n image : String) (cd : ContainerDefinition) :
    (applyImageIfNamed n image cd).name = cd.name := by
  unfold applyImageIfNamed; split <;> rfl

lemma applyImageIfMem_name (S : List String) (image : String) (cd : ContainerDefinition) :
    (applyImageIfMem S image cd).name = cd.name := by
  unfold applyImageIfMem; split <;> rfl

lemma applyImageIfMem_nil (image : String) (cd : ContainerDefinition) :
    applyImageIfMem [] image cd = cd := by
  unfold applyImageIfMem; simp

lemma applyImageIfMem_comp (n : String) (S : List String) (image : String)
    (cd : ContainerDefinition) :
    applyImageIfMem S image (applyImageIfNamed n image cd) =
      applyImageIfMem (n :: S) image cd := by
  unfold applyImageIfMem applyImageIfNamed
  by_cases h1 : cd.name = n
  · by_cases h2 : cd.name ∈ S <;> simp [h1, h2]
  · by_cases h2 : cd.name ∈ S <;> simp [h1, h2]

lemma hasContainerNamed_map_applyImageIfNamed (n image m : String)
    (cds : List ContainerDefinition) :
    hasContainerNamed (cds.map (applyImageIfNamed n image)) m = hasContainerNamed cds m := by
  unfold hasContainerNamed
  rw [List.any_map]
  congr 1
  funext cd
  simp [Function.comp, applyImageIfNamed_name]

lemma names_map_applyImageIfNamed (n image : String) (cds : List ContainerDefinition) :
    (cds.map (applyImageIfNamed n image)).map ContainerDefinition.name =
      cds.map ContainerDefinition.name := by
  rw [List.map_map]
  apply List.map_congr_left
  intro cd _
  simp [Function.comp, applyImageIfNamed_name]

/-- When container names are unique (the documented data-model invariant),
overwriting the image at the `findIndex` position is the same as the
pointwise map over the whole array. -/
lemma setImageFirst_eq_map (n image : String) (cds : List ContainerDefinition)
    (hnodup : (cds.map ContainerDefinition.name).Nodup) :
    setImageFirst n image cds = cds.map (applyImageIfNamed n image) := by
  induction cds with
  | nil => rfl
  | cons cd rest ih =>
    simp only [List.map_cons, List.nodup_cons] at hnodup
    by_cases h : cd.name = n
    · have hcd : applyImageIfNamed n image cd = { cd with image := image } := by
        unfold applyImageIfNamed; rw [if_pos h]
      have hrest : rest.map (applyImageIfNamed n image) = rest := by
        have hpt : ∀ x ∈ rest, applyImageIfNamed n image x = x := by
          intro x hx
          have hxn : x.name ≠ n := by
            intro hxn
            have hxmem : x.name ∈ rest.map ContainerDefinition.name :=
              List.mem_map_of_mem _ hx
            rw [hxn, ← h] at hxmem
            exact hnodup.1 hxmem
          unfold applyImageIfNamed; rw [if_neg hxn]
        calc rest.map (applyImageIfNamed n image)
            = rest.map id := List.map_congr_left (by intro x hx; rw [hpt x hx]; rfl)
          _ = rest := List.map_id rest
      simp only [setImageFirst, List.map_cons, if_pos h, hcd, hrest]
    · simp only [setImageFirst, List.map_cons, if_neg h, ih hnodup.2, List.cons.injEq]
      refine ⟨?_, trivial⟩
      unfold applyImageIfNamed; rw [if_neg h]

lemma hasContainerNamed_map_applyImageIfMem (S : List String) (image m : String)
    (cds : List ContainerDefinition) :
    hasContainerNamed (cds.map (applyImageIfMem S image)) m = hasContainerNamed cds m := by
  unfold hasContainerNamed
  rw [List.any_map]
  congr 1
  funext cd
  simp [Function.comp, applyImageIfMem_name]

/-- Processing a block `S1` of requested names that are all present in the
container array amounts to the pointwise image rewrite for `S1`, after which
the loop continues with the remaining names on the updated array. -/
lemma updateContainersGo_append (image : String) (S1 rest : List String) :
    ∀ cds : List ContainerDefinition,
      (cds.map ContainerDefinition.name).Nodup →
      (∀ m ∈ S1, hasContainerNamed cds m = true) →
      updateContainersGo image (S1 ++ rest) cds =
        updateContainersGo image rest (cds.map (applyImageIfMem S1 image)) := by
  induction S1 with
  | nil =>
    intro cds _ _
    have hmap : cds.map (applyImageIfMem [] image) = cds := by
      calc cds.map (applyImageIfMem [] image)
          = cds.map id := List.map_congr_left (by intro x _; rw [applyImageIfMem_nil]; rfl)
        _ = cds := List.map_id cds
    rw [List.nil_append, hmap]
  | cons n S1 ih =>
    intro cds hnodup hpres
    have hn : hasContainerNamed cds n = true := hpres n (List.mem_cons_self n S1)
    have hstep : updateContainersGo image ((n :: S1) ++ rest) cds =
        updateContainersGo image (S1 ++ rest) (setImageFirst n image cds) := by
      simp only [List.cons_append, updateContainersGo, hn, if_pos]
      rfl
    rw [hstep, setImageFirst_eq_map n image cds hnodup]
    have hnodup2 :
        ((cds.map (applyImageIfNamed n image)).map ContainerDefinition.name).Nodup := by
      rw [names_map_applyImageIfNamed]; exact hnodup
    have hpres2 : ∀ m ∈ S1,
        hasContainerNamed (cds.map (applyImageIfNamed n image)) m = true := by
      intro m hm
      rw [hasContainerNamed_map_applyImageIfNamed]
      exact hpres m (List.mem_cons_of_mem n hm)
    rw [ih (cds.map (applyImageIfNamed n image)) hnodup2 hpres2]
    congr 1
    rw [List.map_map]
    apply List.map_congr_left
    intro cd _
    simp only [Function.comp_apply]
    exact applyImageIfMem_comp n S1 image cd

/-- When every requested name is present, the loop succeeds with the
pointwise image rewrite. -/
lemma updateContainersGo_all (image : String) (S : List String)
    (cds : List ContainerDefinition)
    (hnodup : (cds.map ContainerDefinition.name).Nodup)
    (hpres : ∀ m ∈ S, hasContainerNamed cds m = true) :
    updateContainersGo image S cds = Except.ok (cds.map (applyImageIfMem S image)) := by
  have h := updateContainersGo_append image S [] cds hnodup hpres
  rw [List.append_nil] at h
  rw [h]
  rfl

/-- Claim C1: for every document D, every non-empty list S of container names
all present in D (container names unique within D, per the data-model
invariant), and every image string, `updateTaskDefinitionImage(D, S, image)`
returns a document in which every container whose name is in S has the
supplied image, every container not named in S keeps its image from D, the
nine auxiliary fields equal those of D, and any other field of D is absent
from the result. -/
theorem updateTaskDefinitionImage_correct (td : TaskDefinition) (S : List String)
    (image : String)
    (hnodup : (td.containerDefinitions.map ContainerDefinition.name).Nodup)
    (hne : S ≠ [])
    (hpres : ∀ n ∈ S, hasContainerNamed td.containerDefinitions n = true) :
    ∃ td', updateTaskDefinitionImage td S image = Except.ok td' ∧
      List.Forall₂ (fun cd cd' =>
          cd'.name = cd.name ∧
          (cd.name ∈ S → cd'.image = image) ∧
          (cd.name ∉ S → cd'.image = cd.image) ∧
          cd'.otherFields = cd.otherFields)
        td.containerDefinitions td'.containerDefinitions ∧
      td'.executionRoleArn = td.executionRoleArn ∧
      td'.family = td.family ∧
      td'.networkMode = td.networkMode ∧
      td'.placementConstraints = td.placementConstraints ∧
      td'.taskRoleArn = td.taskRoleArn ∧
      td'.volumes = td.volumes ∧
      td'.requiresCompatibilities = td.requiresCompatibilities ∧
      td'.cpu = td.cpu ∧
      td'.memory = td.memory ∧
      td'.otherFields = [] := by
  refine ⟨pickPublishFields { td with
      containerDefinitions := td.containerDefinitions.map (applyImageIfMem S image) },
    ?_, ?_, rfl, rfl, rfl, rfl, rfl, rfl, rfl, rfl, rfl, rfl⟩
  · unfold updateTaskDefinitionImage
    rw [updateContainersGo_all image S td.containerDefinitions hnodup hpres]
  · show List.Forall₂ _ td.containerDefinitions
      (td.containerDefinitions.map (applyImageIfMem S image))
    rw [List.forall₂_map_right_iff, List.forall₂_same]
    intro cd _
    unfold applyImageIfMem
    by_cases h : cd.name ∈ S
    · simp [h]
    · simp [h]

/-- Concrete three-container document used by witnesses. -/
def tdEx : TaskDefinition :=
  { containerDefinitions :=
      [⟨"app", "image:1", []⟩, ⟨"worker", "image:1", []⟩, ⟨"db", "image:1", []⟩],
    executionRoleArn := some "arn:role",
    family := some "fam",
    networkMode := some "awsvpc",
    placementConstraints := none,
    taskRoleArn := none,
    volumes := none,
    requiresCompatibilities := none,
    cpu := some "256",
    memory := none,
    otherFields := [("taskDefinitionArn", "arn:1"), ("status", "ACTIVE")] }

theorem updateTaskDefinitionImage_correct_witness :
    ((tdEx.containerDefinitions.map ContainerDefinition.name).Nodup ∧
      (["app", "worker"] : List String) ≠ [] ∧
      (∀ n ∈ ["app", "worker"], hasContainerNamed tdEx.containerDefinitions n = true)) ∧
    (∃ td', updateTaskDefinitionImage tdEx ["app", "worker"] "image:2" = Except.ok td' ∧
      List.Forall₂ (fun cd cd' =>
          cd'.name = cd.name ∧
          (cd.name ∈ ["app", "worker"] → cd'.image = "image:2") ∧
          (cd.name ∉ ["app", "worker"] → cd'.image = cd.image) ∧
          cd'.otherFields = cd.otherFields)
        tdEx.containerDefinitions td'.containerDefinitions ∧
      td'.executionRoleArn = tdEx.executionRoleArn ∧
      td'.family = tdEx.family ∧
      td'.networkMode = tdEx.networkMode ∧
      td'.placementConstraints = tdEx.placementConstraints ∧
      td'.taskRoleArn = tdEx.taskRoleArn ∧
      td'.volumes = tdEx.volumes ∧
      td'.requiresCompatibilities = tdEx.requiresCompatibilities ∧
      td'.cpu = tdEx.cpu ∧
      td'.memory = tdEx.memory ∧
      td'.otherFields = []) :=
  ⟨⟨by decide, by decide, by decide⟩,
    updateTaskDefinitionImage_correct tdEx ["app", "worker"] "image:2"
      (by decide) (by decide) (by decide)⟩

/-- Claim C2 (amended): when the requested list is `S1 ++ n :: S2` with every
name of `S1` present in D and `n` absent (container names unique in D),
`updateTaskDefinitionImage` throws the `ContainerNotFoundError` identifying
`n`, the first missing name; but because `_.clone` is shallow, the containers
of the original D that are named in `S1` have already had their image
overwritten when the call fails — partial application IS observable on D
whenever a matching name precedes the missing one, and only the containers
not named in `S1` keep their original image. -/
theorem updateTaskDefinitionImage_failure_mutates (td : TaskDefinition)
    (S1 S2 : List String) (n image : String)
    (hnodup : (td.containerDefinitions.map ContainerDefinition.name).Nodup)
    (hS1 : ∀ m ∈ S1, hasContainerNamed td.containerDefinitions m = true)
    (hn : hasContainerNamed td.containerDefinitions n = false) :
    updateTaskDefinitionImage td (S1 ++ n :: S2) image =
      Except.error (containerNotFoundError n) ∧
    List.Forall₂ (fun cd cd' =>
        cd'.name = cd.name ∧
        (cd.name ∈ S1 → cd'.image = image) ∧
        (cd.name ∉ S1 → cd'.image = cd.image))
      td.containerDefinitions (containersAfterUpdateCall td (S1 ++ n :: S2) image) := by
  have hgo := updateContainersGo_append image S1 (n :: S2) td.containerDefinitions hnodup hS1
  have hn2 : hasContainerNamed
      (td.containerDefinitions.map (applyImageIfMem S1 image)) n = false := by
    rw [hasContainerNamed_map_applyImageIfMem]; exact hn
  have hgo2 : updateContainersGo image (S1 ++ n :: S2) td.containerDefinitions =
      Except.error (n, td.containerDefinitions.map (applyImageIfMem S1 image)) := by
    rw [hgo]
    simp [updateContainersGo, hn2]
  constructor
  · unfold updateTaskDefinitionImage
    rw [hgo2]
  · unfold containersAfterUpdateCall
    rw [hgo2]
    show List.Forall₂ _ td.containerDefinitions
      (td.containerDefinitions.map (applyImageIfMem S1 image))
    rw [List.forall₂_map_right_iff, List.forall₂_same]
    intro cd _
    unfold applyImageIfMem
    by_cases h : cd.name ∈ S1
    · simp [h]
    · simp [h]

theorem updateTaskDefinitionImage_failure_mutates_witness :
    updateTaskDefinitionImage tdEx (["app", "worker"] ++ "missing" :: []) "image:2" =
      Except.error (containerNotFoundError "missing") ∧
    List.Forall₂ (fun cd cd' =>
        cd'.name = cd.name ∧
        (cd.name ∈ ["app", "worker"] → cd'.image = "image:2") ∧
        (cd.name ∉ ["app", "worker"] → cd'.image = cd.image))
      tdEx.containerDefinitions
      (containersAfterUpdateCall tdEx (["app", "worker"] ++ "missing" :: []) "image:2") :=
  updateTaskDefinitionImage_failure_mutates tdEx ["app", "worker"] [] "missing" "image:2"
    (by decide) (by decide) (by decide)

/-- Concrete document for the claim C2 counterexample. -/
def tdC2 : TaskDefinition :=
  { containerDefinitions := [⟨"app", "image:1", []⟩, ⟨"db", "image:1", []⟩],
    executionRoleArn := none,
    family := some "fam",
    networkMode := none,
    placementConstraints := none,
    taskRoleArn := none,
    volumes := none,
    requiresCompatibilities := none,
    cpu := none,
    memory := none,
    otherFields := [("taskDefinitionArn", "arn:old")] }

/-- Claim C2 counterexample: requesting `["app", "missing"]` on a document
with containers `app` and `db` (both at `image:1`) does throw the
container-not-found error for `missing`, but the original document HAS been
mutated by the failed call: its `app` container now carries `image:2`,
because the shallow `_.clone` shares the container array with the original.
This refutes the claim's "D is not mutated — after the failed call, every
container of the original D still has its original image; no partial
application is observable even when some requested names do match". -/
theorem updateTaskDefinitionImage_mutation_counterexample :
    updateTaskDefinitionImage tdC2 ["app", "missing"] "image:2" =
      Except.error (containerNotFoundError "missing") ∧
    containersAfterUpdateCall tdC2 ["app", "missing"] "image:2" ≠
      tdC2.containerDefinitions ∧
    (containersAfterUpdateCall tdC2 ["app", "missing"] "image:2").map
        ContainerDefinition.image = ["image:2", "image:1"] ∧
    tdC2.containerDefinitions.map ContainerDefinition.image = ["image:1", "image:1"] :=
  ⟨rfl, by decide, rfl, rfl⟩

/-- One deployment entry of a service during a rollout. -/
structure Deployment where
  taskDefinition : String
  runningCount : Nat
  pendingCount : Nat
deriving Repr, DecidableEq

/-- Outcome of one `periodicCheck` tick of the waiter. -/
inductive WaiterStatus where
  | polling
  | converged
  | superseded
  | failed (e : JsError)
deriving Repr, DecidableEq

/-- One poll of the waiter (`periodicCheck` in the waiter module), as a
function of the outcome `fetch` of `getServiceTaskDeployments`: the code
computes `isCurrent` as `deployments.filter(d => d.taskDefinition ===
options.taskDefinitionArn).length === 1`; `!isCurrent` stops with the
"no longer deploying" outcome (Superseded), then a single-deployment list
stops with the "is deployed" outcome (Converged), and otherwise another
check is scheduled (Polling).  A lookup error is passed to the callback
(Failed). -/
def periodicCheckStep (target : String) (fetch : Except JsError (List Deployment)) :
    WaiterStatus :=
  match fetch with
  | Except.error e => WaiterStatus.failed e
  | Except.ok deployments =>
    if (deployments.filter (fun d => d.taskDefinition == target)).length = 1 then
      if deployments.length = 1 then WaiterStatus.converged else WaiterStatus.polling
    else WaiterStatus.superseded

/-- Claim C3 (amended): one poll step classifies the fetched deployment list
as follows: when the number of deployments referencing the target revision
arn differs from one (in particular when no deployment references it), the
waiter reaches Superseded; when exactly one deployment references the target
and it is the sole deployment in the list, Converged; when exactly one
references the target and other deployments are still listed, it remains
Polling.  The claim's two concrete examples behave as it states. -/
theorem periodicCheckStep_classification (target : String) (ds : List Deployment) :
    ((ds.filter (fun d => d.taskDefinition == target)).length ≠ 1 →
        periodicCheckStep target (Except.ok ds) = WaiterStatus.superseded) ∧
    ((ds.filter (fun d => d.taskDefinition == target)).length = 1 → ds.length = 1 →
        periodicCheckStep target (Except.ok ds) = WaiterStatus.converged) ∧
    ((ds.filter (fun d => d.taskDefinition == target)).length = 1 → ds.length ≠ 1 →
        periodicCheckStep target (Except.ok ds) = WaiterStatus.polling) := by
  refine ⟨?_, ?_, ?_⟩
  · intro h1; simp [periodicCheckStep, h1]
  · intro h1 h2; simp [periodicCheckStep, h1, h2]
  · intro h1 h2; simp [periodicCheckStep, h1, h2]

/-- Mid-rollout deployment list from the claim: target X running alongside Y. -/
def dsMidFlight : List Deployment := [⟨"X", 1, 1⟩, ⟨"Y", 2, 0⟩]

/-- Deployment list from the claim in which the target X is absent. -/
def dsOnlyOther : List Deployment := [⟨"Y", 3, 0⟩]

theorem periodicCheckStep_classification_witness :
    periodicCheckStep "X" (Except.ok dsMidFlight) = WaiterStatus.polling ∧
    periodicCheckStep "X" (Except.ok dsOnlyOther) = WaiterStatus.superseded :=
  ⟨(periodicCheckStep_classification "X" dsMidFlight).2.2 (by decide) (by decide),
   (periodicCheckStep_classification "X" dsOnlyOther).1 (by decide)⟩

/-- Deployment list with two entries referencing the target. -/
def dsDupTarget : List Deployment := [⟨"X", 1, 0⟩, ⟨"X", 1, 0⟩]

/-- Claim C3 counterexample: with deployments `[{arn:X},{arn:X}]` and target
X, some deployment references the target and the list does not consist of
exactly one deployment, so the claim's case split requires the waiter to
remain Polling; the code instead finds `filter(...).length === 1` false
(two matches) and reaches Superseded. -/
theorem periodicCheckStep_counterexample :
    (∃ d ∈ dsDupTarget, d.taskDefinition = "X") ∧
    dsDupTarget.length ≠ 1 ∧
    periodicCheckStep "X" (Except.ok dsDupTarget) ≠ WaiterStatus.polling ∧
    periodicCheckStep "X" (Except.ok dsDupTarget) = WaiterStatus.superseded := by
  decide

/-- The console line `Task definition "<target>" for service "<service>" is
no longer deploying` printed at the Superseded outcome. -/
def supersededMessage (target service : String) : String :=
  "Task definition \"" ++ target ++ "\" for service \"" ++ service ++
    "\" is no longer deploying"

/-- The console line `Task definition "<target>" for service "<service>" is
deployed` printed at the Converged outcome. -/
def convergedMessage (target service : String) : String :=
  "Task definition \"" ++ target ++ "\" for service \"" ++ service ++
    "\" is deployed"

/-- What one waiter tick does that is visible outside the tick: pass an
error to the waiter's callback, print a console line and stop (no callback
call, no reschedule), or schedule the next check after a delay in
milliseconds (`setTimeout(periodicCheck, options.interval * 1000)`). -/
inductive StepEffect where
  | invokeCallback (e : JsError)
  | logAndStop (line : String)
  | schedule (delayMs : Nat)
deriving Repr, DecidableEq

def periodicCheckEffect (target service : String) (interval : Nat)
    (fetch : Except JsError (List Deployment)) : StepEffect :=
  match periodicCheckStep target fetch with
  | WaiterStatus.failed e => StepEffect.invokeCallback e
  | WaiterStatus.superseded => StepEffect.logAndStop (supersededMessage target service)
  | WaiterStatus.converged => StepEffect.logAndStop (convergedMessage target service)
  | WaiterStatus.polling => StepEffect.schedule (interval * 1000)

/-- The value the waiter's callback receives from a tick's effect, if the
callback is invoked at all. -/
def effectCallbackArg : StepEffect → Option JsError
  | StepEffect.invokeCallback e => some e
  | StepEffect.logAndStop _ => none
  | StepEffect.schedule _ => none

lemma string_append_data (s t : String) : (s ++ t).data = s.data ++ t.data := by
  cases s; cases t; rfl

lemma supersededMessage_ne_convergedMessage (target service : String) :
    supersededMessage target service ≠ convergedMessage target service := by
  intro h
  have h2 := congrArg String.data h
  unfold supersededMessage convergedMessage at h2
  simp only [string_append_data, List.append_assoc] at h2
  have h3 := List.append_cancel_left h2
  have h4 := List.append_cancel_left h3
  have h5 := List.append_cancel_left h4
  have h6 := List.append_cancel_left h5
  exact absurd h6 (by decide)

/-- Deployment list on which the waiter converges (target is sole entry). -/
def dsConvergedEx : List Deployment := [⟨"X", 2, 0⟩]

/-- Claim C4 counterexample: at the terminal Superseded input
`[{arn:Y,running:3}]` (target X) and the terminal Converged input
`[{arn:X,running:2}]`, the waiter's tick passes nothing to its callback —
the step effect is a console line only — so no outcome is returned to the
caller at either terminal state, refuting the claim that the waiter
"returns an outcome to its caller in which the Superseded result is a
non-error outcome distinguishable from Converged". -/
theorem waiterReporting_counterexample :
    periodicCheckStep "X" (Except.ok dsOnlyOther) = WaiterStatus.superseded ∧
    effectCallbackArg (periodicCheckEffect "X" "app" 10 (Except.ok dsOnlyOther)) = none ∧
    periodicCheckStep "X" (Except.ok dsConvergedEx) = WaiterStatus.converged ∧
    effectCallbackArg (periodicCheckEffect "X" "app" 10 (Except.ok dsConvergedEx)) = none := by
  decide

/-- Claim C4 (amended): a remote-call failure during polling is terminal
Failed and propagates the error to the caller through the callback; the
terminal Superseded and Converged outcomes do NOT invoke the callback —
they are reported only as console lines, distinguishable from each other
("... is no longer deploying" vs "... is deployed") — and on any
successfully fetched deployment list the callback receives nothing. -/
theorem waiter_reporting (target service : String) (interval : Nat)
    (fetch : Except JsError (List Deployment)) :
    (∀ e, fetch = Except.error e →
        periodicCheckStep target fetch = WaiterStatus.failed e ∧
        periodicCheckEffect target service interval fetch = StepEffect.invokeCallback e ∧
        effectCallbackArg (periodicCheckEffect target service interval fetch) = some e) ∧
    (periodicCheckStep target fetch = WaiterStatus.superseded →
        periodicCheckEffect target service interval fetch =
          StepEffect.logAndStop (supersededMessage target service)) ∧
    (periodicCheckStep target fetch = WaiterStatus.converged →
        periodicCheckEffect target service interval fetch =
          StepEffect.logAndStop (convergedMessage target service)) ∧
    supersededMessage target service ≠ convergedMessage target service ∧
    (∀ ds, fetch = Except.ok ds →
        effectCallbackArg (periodicCheckEffect target service interval fetch) = none) := by
  refine ⟨?_, ?_, ?_, supersededMessage_ne_convergedMessage target service, ?_⟩
  · intro e he; subst he
    exact ⟨rfl, rfl, rfl⟩
  · intro hstep
    unfold periodicCheckEffect
    rw [hstep]
  · intro hstep
    unfold periodicCheckEffect
    rw [hstep]
  · intro ds hds; subst hds
    by_cases h1 : (ds.filter (fun d => d.taskDefinition == target)).length = 1
    · by_cases h2 : ds.length = 1
      · simp [periodicCheckEffect, periodicCheckStep, effectCallbackArg, h1, h2]
      · simp [periodicCheckEffect, periodicCheckStep, effectCallbackArg, h1, h2]
    · simp [periodicCheckEffect, periodicCheckStep, effectCallbackArg, h1]

theorem waiter_reporting_witness :
    periodicCheckStep "X" (Except.error (JsError.error "boom")) =
      WaiterStatus.failed (JsError.error "boom") ∧
    periodicCheckEffect "X" "app" 10 (Except.error (JsError.error "boom")) =
      StepEffect.invokeCallback (JsError.error "boom") ∧
    effectCallbackArg
        (periodicCheckEffect "X" "app" 10 (Except.error (JsError.error "boom"))) =
      some (JsError.error "boom") :=
  (waiter_reporting "X" "app" 10 (Except.error (JsError.error "boom"))).1
    (JsError.error "boom") rfl

/-- The code's stay-in-Polling condition on a fetched deployment list: the
target is referenced by exactly one deployment entry (`isCurrent`, i.e.
`filter(...).length === 1`) and at least one other deployment is still
listed (`deployments.length !== 1`). -/
def midFlight (target : String) (fetch : Except JsError (List Deployment)) : Bool :=
  match fetch with
  | Except.error _ => false
  | Except.ok ds =>
    ((ds.filter (fun d => d.taskDefinition == target)).length == 1) &&
      decide (2 ≤ ds.length)

/-- The waiter's state after `n` completed polls, where `polls k` is the
deployment-fetch outcome of the `k`-th poll: the waiter starts Polling
(entered after the fixed initial delay) and each poll applies
`periodicCheckStep`; terminal states absorb (nothing is rescheduled). -/
def waiterStateAfter (target : String)
    (polls : Nat → Except JsError (List Deployment)) : Nat → WaiterStatus
  | 0 => WaiterStatus.polling
  | n + 1 =>
    if waiterStateAfter target polls n = WaiterStatus.polling then
      periodicCheckStep target (polls n)
    else waiterStateAfter target polls n

lemma midFlight_step (target : String) (fetch : Except JsError (List Deployment))
    (h : midFlight target fetch = true) :
    periodicCheckStep target fetch = WaiterStatus.polling := by
  match fetch with
  | Except.error e => simp [midFlight] at h
  | Except.ok ds =>
    simp only [midFlight, Bool.and_eq_true, beq_iff_eq, decide_eq_true_eq] at h
    have hne : ds.length ≠ 1 := by omega
    simp [periodicCheckStep, h.1, hne]

/-- Claim C9 (amended): the waiter enforces no maximum attempt count and no
overall timeout: after any number `n` of polls whose fetched lists keep the
target referenced by exactly one deployment entry alongside at least one
other deployment (the code's stay-in-Polling condition), the waiter is
still in Polling; any such tick only schedules the next check after the
configured interval (in milliseconds); and the waiter leaves Polling only
through a poll whose step rule yields the Converged, Superseded or Failed
outcome — in particular a list in which several entries reference the
target leaves via Superseded, not Polling. -/
theorem waiter_unbounded_polling (target service : String) (interval : Nat)
    (polls : Nat → Except JsError (List Deployment)) (n : Nat)
    (h : ∀ k, k < n → midFlight target (polls k) = true) :
    waiterStateAfter target polls n = WaiterStatus.polling ∧
    (∀ fetch, midFlight target fetch = true →
        periodicCheckEffect target service interval fetch =
          StepEffect.schedule (interval * 1000)) ∧
    (∀ m s, waiterStateAfter target polls m = s → s ≠ WaiterStatus.polling →
        ∃ k, k < m ∧ periodicCheckStep target (polls k) = s) := by
  refine ⟨?_, ?_, ?_⟩
  · induction n with
    | zero => rfl
    | succ n ih =>
      have hn : waiterStateAfter target polls n = WaiterStatus.polling :=
        ih (fun k hk => h k (Nat.lt_succ_of_lt hk))
      have hstep : periodicCheckStep target (polls n) = WaiterStatus.polling :=
        midFlight_step target (polls n) (h n (Nat.lt_succ_self n))
      unfold waiterStateAfter
      rw [hn, if_pos rfl, hstep]
  · intro fetch hf
    unfold periodicCheckEffect
    rw [midFlight_step target fetch hf]
  · intro m
    induction m with
    | zero =>
      intro s hs hne
      rw [show waiterStateAfter target polls 0 = WaiterStatus.polling from rfl] at hs
      exact absurd hs.symm hne
    | succ m ih =>
      intro s hs hne
      unfold waiterStateAfter at hs
      by_cases hw : waiterStateAfter target polls m = WaiterStatus.polling
      · rw [if_pos hw] at hs
        exact ⟨m, Nat.lt_succ_self m, hs⟩
      · rw [if_neg hw] at hs
        obtain ⟨k, hk, hstep⟩ := ih s hs hne
        exact ⟨k, Nat.lt_succ_of_lt hk, hstep⟩

/-- Poll oracle that always reports the mid-flight list of the claim. -/
def pollsEx : Nat → Except JsError (List Deployment) := fun _ => Except.ok dsMidFlight

theorem waiter_unbounded_polling_witness :
    (∀ k, k < 3 → midFlight "X" (pollsEx k) = true) ∧
    waiterStateAfter "X" pollsEx 3 = WaiterStatus.polling :=
  ⟨by decide, (waiter_unbounded_polling "X" "app" 10 pollsEx 3 (by decide)).1⟩

/-- Deployment list in which the target X is present — referenced by two
entries — alongside another deployment. -/
def dsDupWithOther : List Deployment := [⟨"X", 1, 0⟩, ⟨"X", 1, 0⟩, ⟨"Y", 2, 0⟩]

/-- Poll oracle that always reports `dsDupWithOther`. -/
def pollsDup : Nat → Except JsError (List Deployment) :=
  fun _ => Except.ok dsDupWithOther

/-- Claim C9 counterexample: every poll fetches `[{arn:X},{arn:X},{arn:Y}]`,
a list that keeps the target X present alongside at least one other
deployment, so the claim says the waiter is still Polling after one poll;
the code instead finds `filter(...).length === 1` false (two entries
reference X) and leaves Polling via Superseded on the very first poll. -/
theorem waiter_unbounded_polling_counterexample :
    (∃ d ∈ dsDupWithOther, d.taskDefinition = "X") ∧
    2 ≤ dsDupWithOther.length ∧
    pollsDup 0 = Except.ok dsDupWithOther ∧
    waiterStateAfter "X" pollsDup 1 = WaiterStatus.superseded ∧
    waiterStateAfter "X" pollsDup 1 ≠ WaiterStatus.polling := by
  decide

/-- The request options object handed to the updater module. -/
structure Options where
  clusterArn : Option String
  serviceName : Option String
  taskDefinitionFamily : Option String
  containerNames : List String
  image : String
deriving Repr, DecidableEq

/-- A service object from `describeServices`. -/
structure Service where
  serviceName : String
  taskDefinition : String
  deployments : List Deployment
deriving Repr, DecidableEq

/-- The stored task definition returned by `registerTaskDefinition`: the
remote service assigns the new revision's `taskDefinitionArn`. -/
structure RegisteredTaskDefinition where
  taskDefinitionArn : String
  body : TaskDefinition
deriving Repr, DecidableEq

/-- JavaScript truthiness of an optional string option (`undefined` and the
empty string are both falsy). -/
def truthyStr : Option String → Bool
  | none => false
  | some s => s != ""

/-- One remote AWS call event, with the parameters the source passes. -/
inductive RemoteCall where
  | describeServices (cluster : Option String) (services : List String)
  | listTaskDefinitions (familyArg : String) (sort : String) (status : String)
  | describeTaskDefinition (arn : String)
  | registerTaskDefinition (td : TaskDefinition)
  | updateService (cluster : Option String) (service : Option String) (arn : String)
deriving Repr, DecidableEq

/-- The remote ECS collaborator: the response each operation would return
if called.  Functions below record in their trace which operations they
actually invoke. -/
structure ECSRemote where
  describeServices : Option String → List String → Except JsError (List Service)
  listTaskDefinitions : String → String → String → Except JsError (List String)
  describeTaskDefinition : String → Except JsError TaskDefinition
  registerTaskDefinition : TaskDefinition → Except JsError RegisteredTaskDefinition
  updateService : Option String → Option String → String → Except JsError Service

/-- `getServiceTaskDefinition(options)`: resolves immediately with no value
and no remote call when `options.serviceName` is falsy; otherwise describes
the service, errors if no returned entry matches the name, and yields the
service's current task definition arn. -/
def getServiceTaskDefinition (remote : ECSRemote) (options : Options) :
    Except JsError (Option String) × List RemoteCall :=
  if truthyStr options.serviceName = false then (Except.ok none, [])
  else
    let svcName := options.serviceName.getD ""
    match remote.describeServices options.clusterArn [svcName] with
    | Except.error e =>
        (Except.error e, [RemoteCall.describeServices options.clusterArn [svcName]])
    | Except.ok services =>
      match services.find? (fun s => s.serviceName == svcName) with
      | none =>
          (Except.error (JsError.error ("Could not find service \"" ++ svcName ++ "\"")),
           [RemoteCall.describeServices options.clusterArn [svcName]])
      | some svc =>
          (Except.ok (some svc.taskDefinition),
           [RemoteCall.describeServices options.clusterArn [svcName]])

/-- `getLatestActiveTaskDefinition(options)`: resolves immediately with no
value and no remote call when `options.taskDefinitionFamily` is falsy;
otherwise lists the family's revisions sorted DESC, filtered to ACTIVE, and
yields the first arn.  On an empty list the source evaluates the template
literal `No Task Definitions found in family "${family}"`, but `family` is
an undeclared variable there, so in strict mode the `throw` line raises
`ReferenceError: family is not defined` instead of the intended `Error` —
modeled by `JsError.referenceError "family"`. -/
def getLatestActiveTaskDefinition (remote : ECSRemote) (options : Options) :
    Except JsError (Option String) × List RemoteCall :=
  if truthyStr options.taskDefinitionFamily = false then (Except.ok none, [])
  else
    let fam := options.taskDefinitionFamily.getD ""
    match remote.listTaskDefinitions fam "DESC" "ACTIVE" with
    | Except.error e =>
        (Except.error e, [RemoteCall.listTaskDefinitions fam "DESC" "ACTIVE"])
    | Except.ok [] =>
        (Except.error (JsError.referenceError "family"),
         [RemoteCall.listTaskDefinitions fam "DESC" "ACTIVE"])
    | Except.ok (arn :: _) =>
        (Except.ok (some arn), [RemoteCall.listTaskDefinitions fam "DESC" "ACTIVE"])

/-- `getTaskDefinition(taskDefinitionArn)`: describes the revision and
returns its document. -/
def getTaskDefinition (remote : ECSRemote) (arn : String) :
    Except JsError TaskDefinition × List RemoteCall :=
  (remote.describeTaskDefinition arn, [RemoteCall.describeTaskDefinition arn])

/-- `_.filter(results, r => r)[0]`: the first truthy entry (non-undefined,
non-empty string) of the settled lookup results. -/
def firstTruthy : List (Option String) → Option String
  | [] => none
  | none :: rest => firstTruthy rest
  | some s :: rest => if s = "" then firstTruthy rest else some s

def configErrorMessage : String :=
  "Ensure either the serviceName or taskDefinitionFamily option are specified"

/-- `currentTaskDefinition(options)`: errors before any remote call when
both addressing options are falsy; otherwise settles both lookups (family
first, service second, mirroring the `Promise.all` array; when both reject
the model propagates the family lookup's error), takes the first truthy
arn, and fetches that revision's document.  The trace concatenates the two
lookups' calls and then the fetch. -/
def currentTaskDefinition (remote : ECSRemote) (options : Options) :
    Except JsError TaskDefinition × List RemoteCall :=
  if !truthyStr options.serviceName && !truthyStr options.taskDefinitionFamily then
    (Except.error (JsError.error configErrorMessage), [])
  else
    match getLatestActiveTaskDefinition remote options,
        getServiceTaskDefinition remote options with
    | (Except.error e, t1), (_, t2) => (Except.error e, t1 ++ t2)
    | (Except.ok _, t1), (Except.error e, t2) => (Except.error e, t1 ++ t2)
    | (Except.ok famArn, t1), (Except.ok svcArn, t2) =>
      match firstTruthy [famArn, svcArn] with
      | none =>
          (Except.error (JsError.error "Error could not find task definition"), t1 ++ t2)
      | some arn =>
          ((getTaskDefinition remote arn).1, t1 ++ t2 ++ (getTaskDefinition remote arn).2)

/-- `updateService(options, taskDefinitionArn)`: points the service at the
new revision. -/
def updateService (remote : ECSRemote) (options : Options) (taskDefinitionArn : String) :
    Except JsError Service × List RemoteCall :=
  (remote.updateService options.clusterArn options.serviceName taskDefinitionArn,
   [RemoteCall.updateService options.clusterArn options.serviceName taskDefinitionArn])

/-- `new Error('Callback was already called.')`: the error async's once-guard
raises when a stage callback is invoked a second time. -/
def callbackAlreadyCalledError : JsError := JsError.error "Callback was already called."

/-- What one run of the orchestrator delivers to its caller.
`callback r` means the waterfall's final callback is invoked with `r`
(an error, or the new revision arn).  `callbackNeverCalled e u` means the
final callback is never invoked: the second waterfall stage threw `e`
synchronously (`updateTaskDefinitionImage` is called outside any try/catch
and its `throw` is not routed to `next`); because that stage had been
entered from `next(null, currentTaskDefinition)` running inside the
locator's `.then(taskDefinition => cb(null, taskDefinition))`, the throw
rejects that promise and the locator's trailing `.catch(err => cb(err))`
re-invokes the already-consumed stage-1 callback, whose once-guard raises
`u` (`Callback was already called.`) as an unhandled rejection — the
thrown `e` itself is swallowed and reaches no one. -/
inductive UpdaterOutcome where
  | callback (result : Except JsError String)
  | callbackNeverCalled (swallowed : JsError) (unhandled : JsError)
deriving Repr, DecidableEq

/-- The pipeline orchestrator (`updater(options, cb)`, the `async.waterfall`):
locate the current document, transform it, register the new revision, and —
only when `options.serviceName` is truthy — repoint the service.  No later
stage runs after a failure.  Failures of the locate, register and repoint
stages reach the final callback; a transform failure instead leaves the
final callback uninvoked and raises the unhandled once-guard error (see
`UpdaterOutcome.callbackNeverCalled`).  On success the final callback gets
the newly registered revision's arn whether or not a service was targeted. -/
def updater (remote : ECSRemote) (options : Options) :
    UpdaterOutcome × List RemoteCall :=
  match currentTaskDefinition remote options with
  | (Except.error e, trace) => (UpdaterOutcome.callback (Except.error e), trace)
  | (Except.ok ctd, trace) =>
    match updateTaskDefinitionImage ctd options.containerNames options.image with
    | Except.error e =>
        (UpdaterOutcome.callbackNeverCalled e callbackAlreadyCalledError, trace)
    | Except.ok newTd =>
      match remote.registerTaskDefinition newTd with
      | Except.error e =>
          (UpdaterOutcome.callback (Except.error e),
           trace ++ [RemoteCall.registerTaskDefinition newTd])
      | Except.ok reg =>
        if truthyStr options.serviceName = false then
          (UpdaterOutcome.callback (Except.ok reg.taskDefinitionArn),
           trace ++ [RemoteCall.registerTaskDefinition newTd])
        else
          match updateService remote options reg.taskDefinitionArn with
          | (Except.error e, t2) =>
              (UpdaterOutcome.callback (Except.error e),
               trace ++ [RemoteCall.registerTaskDefinition newTd] ++ t2)
          | (Except.ok _, t2) =>
              (UpdaterOutcome.callback (Except.ok reg.taskDefinitionArn),
               trace ++ [RemoteCall.registerTaskDefinition newTd] ++ t2)

/-- Claim C6: when both `serviceName` and `taskDefinitionFamily` are unset
(falsy), `currentTaskDefinition` fails with the configuration error and its
remote-call trace is empty: no remote operation is invoked on that run. -/
theorem currentTaskDefinition_config_error (remote : ECSRemote) (options : Options)
    (hsvc : truthyStr options.serviceName = false)
    (hfam : truthyStr options.taskDefinitionFamily = false) :
    currentTaskDefinition remote options =
      (Except.error (JsError.error configErrorMessage), []) := by
  unfold currentTaskDefinition
  rw [hsvc, hfam]
  rfl

/-- Example service returned by the example remote collaborator. -/
def svcEx : Service := { serviceName := "app", taskDefinition := "arn:1", deployments := [] }

/-- Example remote collaborator on which every operation succeeds. -/
def remoteEx : ECSRemote :=
  { describeServices := fun _ _ => Except.ok [svcEx],
    listTaskDefinitions := fun _ _ _ => Except.ok ["arn:fam1"],
    describeTaskDefinition := fun _ => Except.ok tdEx,
    registerTaskDefinition := fun td =>
      Except.ok { taskDefinitionArn := "arn:new", body := td },
    updateService := fun _ _ _ => Except.ok svcEx }

/-- Request with neither addressing mode set. -/
def optionsNoMode : Options :=
  { clusterArn := none, serviceName := none, taskDefinitionFamily := none,
    containerNames := ["app"], image := "image:2" }

theorem currentTaskDefinition_config_error_witness :
    currentTaskDefinition remoteEx optionsNoMode =
      (Except.error (JsError.error configErrorMessage), []) :=
  currentTaskDefinition_config_error remoteEx optionsNoMode rfl rfl

lemma currentTaskDefinition_found (remote : ECSRemote) (options : Options)
    (hcond : (!truthyStr options.serviceName &&
        !truthyStr options.taskDefinitionFamily) = false)
    (famArn svcArn : Option String) (t1 t2 : List RemoteCall) (arn : String)
    (h1 : getLatestActiveTaskDefinition remote options = (Except.ok famArn, t1))
    (h2 : getServiceTaskDefinition remote options = (Except.ok svcArn, t2))
    (harn : firstTruthy [famArn, svcArn] = some arn) :
    currentTaskDefinition remote options =
      ((getTaskDefinition remote arn).1, t1 ++ t2 ++ (getTaskDefinition remote arn).2) := by
  unfold currentTaskDefinition
  rw [h1, h2]
  simp [hcond, harn]

lemma currentTaskDefinition_notfound (remote : ECSRemote) (options : Options)
    (hcond : (!truthyStr options.serviceName &&
        !truthyStr options.taskDefinitionFamily) = false)
    (famArn svcArn : Option String) (t1 t2 : List RemoteCall)
    (h1 : getLatestActiveTaskDefinition remote options = (Except.ok famArn, t1))
    (h2 : getServiceTaskDefinition remote options = (Except.ok svcArn, t2))
    (harn : firstTruthy [famArn, svcArn] = none) :
    currentTaskDefinition remote options =
      (Except.error (JsError.error "Error could not find task definition"), t1 ++ t2) := by
  unfold currentTaskDefinition
  rw [h1, h2]
  simp [hcond, harn]

/-- Claim C7: for every valid request (at least one addressing mode set),
the lookup whose addressing option is unset resolves immediately with an
empty result and an empty call trace (no network call); the locator then
takes the first non-empty identity from the two outcomes, ordered
[family, service], and fetches the full document for it, and when both
outcomes are empty it fails with the not-found error. -/
theorem currentTaskDefinition_locator (remote : ECSRemote) (options : Options)
    (hmode : (truthyStr options.serviceName ||
        truthyStr options.taskDefinitionFamily) = true) :
    (truthyStr options.taskDefinitionFamily = false →
        getLatestActiveTaskDefinition remote options = (Except.ok none, [])) ∧
    (truthyStr options.serviceName = false →
        getServiceTaskDefinition remote options = (Except.ok none, [])) ∧
    (∀ famArn svcArn t1 t2,
        getLatestActiveTaskDefinition remote options = (Except.ok famArn, t1) →
        getServiceTaskDefinition remote options = (Except.ok svcArn, t2) →
        (∀ arn, firstTruthy [famArn, svcArn] = some arn →
            currentTaskDefinition remote options =
              ((getTaskDefinition remote arn).1,
               t1 ++ t2 ++ (getTaskDefinition remote arn).2)) ∧
        (firstTruthy [famArn, svcArn] = none →
            currentTaskDefinition remote options =
              (Except.error (JsError.error "Error could not find task definition"),
               t1 ++ t2))) := by
  have hcond : (!truthyStr options.serviceName &&
      !truthyStr options.taskDefinitionFamily) = false := by
    rw [← Bool.not_or, hmode]
    rfl
  refine ⟨?_, ?_, ?_⟩
  · intro hf
    unfold getLatestActiveTaskDefinition
    rw [hf]
    rfl
  · intro hs
    unfold getServiceTaskDefinition
    rw [hs]
    rfl
  · intro famArn svcArn t1 t2 h1 h2
    exact ⟨fun arn harn =>
        currentTaskDefinition_found remote options hcond famArn svcArn t1 t2 arn h1 h2 harn,
      fun hnone =>
        currentTaskDefinition_notfound remote options hcond famArn svcArn t1 t2 h1 h2 hnone⟩

/-- Family-mode request. -/
def famOptionsEx : Options :=
  { clusterArn := none, serviceName := none, taskDefinitionFamily := some "fam",
    containerNames := ["app"], image := "image:2" }

theorem currentTaskDefinition_locator_witness :
    getServiceTaskDefinition remoteEx famOptionsEx = (Except.ok none, []) ∧
    currentTaskDefinition remoteEx famOptionsEx =
      ((getTaskDefinition remoteEx "arn:fam1").1,
       [RemoteCall.listTaskDefinitions "fam" "DESC" "ACTIVE"] ++ [] ++
         (getTaskDefinition remoteEx "arn:fam1").2) := by
  have h := currentTaskDefinition_locator remoteEx famOptionsEx (by decide)
  exact ⟨h.2.1 (by decide),
    (h.2.2 (some "arn:fam1") none [RemoteCall.listTaskDefinitions "fam" "DESC" "ACTIVE"] []
        (by decide) (by decide)).1 "arn:fam1" (by decide)⟩

/-- Claim C8 (code bug): a family-mode lookup whose remote list of active
revisions is empty does fail, but the throw site's template literal
`No Task Definitions found in family "${family}"` reads the undeclared
variable `family`, so in strict mode the lookup raises `ReferenceError:
family is not defined` — not an error whose message identifies the
requested family. -/
theorem getLatestActive_empty_family_reference_error (remote : ECSRemote)
    (options : Options) (fam : String)
    (hfam : options.taskDefinitionFamily = some fam) (hne : fam ≠ "")
    (hlist : remote.listTaskDefinitions fam "DESC" "ACTIVE" = Except.ok []) :
    getLatestActiveTaskDefinition remote options =
      (Except.error (JsError.referenceError "family"),
       [RemoteCall.listTaskDefinitions fam "DESC" "ACTIVE"]) := by
  unfold getLatestActiveTaskDefinition
  rw [hfam]
  have ht : truthyStr (some fam) = true := by
    unfold truthyStr
    exact bne_iff_ne.mpr hne
  rw [ht]
  simp only [Bool.true_eq_false, if_false, Option.getD_some]
  rw [hlist]

/-- Remote collaborator whose family listing is empty. -/
def remoteEmptyFam : ECSRemote :=
  { remoteEx with listTaskDefinitions := fun _ _ _ => Except.ok [] }

theorem getLatestActive_empty_family_reference_error_witness :
    getLatestActiveTaskDefinition remoteEmptyFam famOptionsEx =
      (Except.error (JsError.referenceError "family"),
       [RemoteCall.listTaskDefinitions "fam" "DESC" "ACTIVE"]) :=
  getLatestActive_empty_family_reference_error remoteEmptyFam famOptionsEx "fam"
    rfl (by decide) rfl

/-- Claim C5 (amended): the pipeline runs locate-current, apply-image,
publish, and then repoint only when `serviceName` is set; no later stage is
attempted after a failure (the call trace contains no later-stage call) and
no stage result of a failed run is exposed.  Failures of the locate, publish
and repoint stages are returned to the caller through the final callback,
and on success the callback receives the registered revision's arn whether
or not a service was targeted; an apply-image failure, however, is NOT
returned to the caller: its synchronous throw escapes into the locator's
promise chain, whose `.catch` re-invokes the consumed stage callback, so the
final callback is never invoked and the unhandled once-guard error is raised
while the thrown error is swallowed. -/
theorem updater_short_circuits (remote : ECSRemote) (options : Options) :
    (∀ e tr, currentTaskDefinition remote options = (Except.error e, tr) →
        updater remote options = (UpdaterOutcome.callback (Except.error e), tr)) ∧
    (∀ ctd tr, currentTaskDefinition remote options = (Except.ok ctd, tr) →
      (∀ e, updateTaskDefinitionImage ctd options.containerNames options.image =
              Except.error e →
          updater remote options =
            (UpdaterOutcome.callbackNeverCalled e callbackAlreadyCalledError, tr)) ∧
      (∀ newTd, updateTaskDefinitionImage ctd options.containerNames options.image =
              Except.ok newTd →
        (∀ e, remote.registerTaskDefinition newTd = Except.error e →
            updater remote options =
              (UpdaterOutcome.callback (Except.error e),
               tr ++ [RemoteCall.registerTaskDefinition newTd])) ∧
        (∀ reg, remote.registerTaskDefinition newTd = Except.ok reg →
          (truthyStr options.serviceName = false →
              updater remote options =
                (UpdaterOutcome.callback (Except.ok reg.taskDefinitionArn),
                 tr ++ [RemoteCall.registerTaskDefinition newTd])) ∧
          (truthyStr options.serviceName = true →
            (∀ e t2, updateService remote options reg.taskDefinitionArn =
                    (Except.error e, t2) →
                updater remote options =
                  (UpdaterOutcome.callback (Except.error e),
                   tr ++ [RemoteCall.registerTaskDefinition newTd] ++ t2)) ∧
            (∀ svc t2, updateService remote options reg.taskDefinitionArn =
                    (Except.ok svc, t2) →
                updater remote options =
                  (UpdaterOutcome.callback (Except.ok reg.taskDefinitionArn),
                   tr ++ [RemoteCall.registerTaskDefinition newTd] ++ t2)))))) := by
  constructor
  · intro e tr h
    simp [updater, h]
  · intro ctd tr h
    constructor
    · intro e h2
      simp [updater, h, h2]
    · intro newTd h2
      constructor
      · intro e h3
        simp [updater, h, h2, h3]
      · intro reg h3
        constructor
        · intro hsvc
          simp [updater, h, h2, h3, hsvc]
        · intro hsvc
          constructor
          · intro e t2 h4
            simp [updater, h, h2, h3, hsvc, h4]
          · intro svc t2 h4
            simp [updater, h, h2, h3, hsvc, h4]

/-- Service-mode request used by orchestrator witnesses. -/
def optionsEx : Options :=
  { clusterArn := some "arn:cluster", serviceName := some "app",
    taskDefinitionFamily := none, containerNames := ["app"], image := "image:2" }

/-- The locator's call trace on `remoteEx` with `optionsEx`. -/
def trEx : List RemoteCall :=
  [RemoteCall.describeServices (some "arn:cluster") ["app"],
   RemoteCall.describeTaskDefinition "arn:1"]

/-- The document `updateTaskDefinitionImage tdEx ["app"] "image:2"` returns. -/
def newTdEx : TaskDefinition :=
  { containerDefinitions :=
      [⟨"app", "image:2", []⟩, ⟨"worker", "image:1", []⟩, ⟨"db", "image:1", []⟩],
    executionRoleArn := some "arn:role",
    family := some "fam",
    networkMode := some "awsvpc",
    placementConstraints := none,
    taskRoleArn := none,
    volumes := none,
    requiresCompatibilities := none,
    cpu := some "256",
    memory := none,
    otherFields := [] }

/-- The registered revision `remoteEx` returns for `newTdEx`. -/
def regEx : RegisteredTaskDefinition := { taskDefinitionArn := "arn:new", body := newTdEx }

theorem updater_short_circuits_witness :
    updater remoteEx optionsEx =
      (UpdaterOutcome.callback (Except.ok "arn:new"),
       [RemoteCall.describeServices (some "arn:cluster") ["app"],
        RemoteCall.describeTaskDefinition "arn:1",
        RemoteCall.registerTaskDefinition newTdEx,
        RemoteCall.updateService (some "arn:cluster") (some "app") "arn:new"]) := by
  have h := updater_short_circuits remoteEx optionsEx
  have h2 := ((h.2 tdEx trEx (by decide)).2 newTdEx (by decide)).2 regEx (by decide)
  have h3 := (h2.2 (by decide)).2 svcEx
      [RemoteCall.updateService (some "arn:cluster") (some "app") "arn:new"] (by decide)
  exact h3

/-- Service-mode request naming a container absent from `tdEx`. -/
def optionsMissing : Options :=
  { clusterArn := some "arn:cluster", serviceName := some "app",
    taskDefinitionFamily := none, containerNames := ["missing"], image := "image:2" }

/-- Claim C5 counterexample: with a request naming a container absent from
the located document, the apply-image stage fails and no later stage is
attempted (the trace holds the locate calls only, no register or
update-service call), but the failing stage's error is NOT returned to the
caller: the run ends with the final callback never invoked — the
ContainerNotFoundError thrown synchronously by `updateTaskDefinitionImage`
escapes into the locator's promise chain, whose `.catch` re-invokes the
consumed stage callback, raising the unhandled `Callback was already
called.` error — refuting the claim that a failing stage's error is
returned to the caller. -/
theorem updater_short_circuits_counterexample :
    updater remoteEx optionsMissing =
      (UpdaterOutcome.callbackNeverCalled (containerNotFoundError "missing")
          callbackAlreadyCalledError,
       [RemoteCall.describeServices (some "arn:cluster") ["app"],
        RemoteCall.describeTaskDefinition "arn:1"]) ∧
    (updater remoteEx optionsMissing).1 ≠
      UpdaterOutcome.callback (Except.error (containerNotFoundError "missing")) := by
  decide

lemma getLatestActive_trace (remote : ECSRemote) (options : Options) (fam : String)
    (hfam : options.taskDefinitionFamily = some fam) (hfne : fam ≠ "") :
    (getLatestActiveTaskDefinition remote options).2 =
      [RemoteCall.listTaskDefinitions fam "DESC" "ACTIVE"] := by
  unfold getLatestActiveTaskDefinition
  rw [hfam]
  have ht : truthyStr (some fam) = true := by
    unfold truthyStr
    exact bne_iff_ne.mpr hfne
  rw [ht]
  simp only [Bool.true_eq_false, if_false, Option.getD_some]
  cases remote.listTaskDefinitions fam "DESC" "ACTIVE" with
  | error e => rfl
  | ok arns => cases arns with
    | nil => rfl
    | cons a as => rfl

lemma getService_trace (remote : ECSRemote) (options : Options) (svcName : String)
    (hsvc : options.serviceName = some svcName) (hsne : svcName ≠ "") :
    (getServiceTaskDefinition remote options).2 =
      [RemoteCall.describeServices options.clusterArn [svcName]] := by
  unfold getServiceTaskDefinition
  rw [hsvc]
  have ht : truthyStr (some svcName) = true := by
    unfold truthyStr
    exact bne_iff_ne.mpr hsne
  rw [ht]
  simp only [Bool.true_eq_false, if_false, Option.getD_some]
  cases remote.describeServices options.clusterArn [svcName] with
  | error e => rfl
  | ok services =>
    show (match List.find? (fun (s : Service) => s.serviceName == svcName) services with
      | none =>
        (Except.error (JsError.error ("Could not find service \"" ++ svcName ++ "\"")),
         [RemoteCall.describeServices options.clusterArn [svcName]])
      | some svc =>
        (Except.ok (some svc.taskDefinition),
         [RemoteCall.describeServices options.clusterArn [svcName]])).2 =
      [RemoteCall.describeServices options.clusterArn [svcName]]
    cases List.find? (fun s => s.serviceName == svcName) services with
    | none => rfl
    | some svc => rfl

/-- Claim C10: when both `serviceName` and `taskDefinitionFamily` are set
(violating the mutual-exclusion invariant), both lookups perform their
network call; the settled results are ordered [family, service], and since
the family lookup's identity is non-empty it is the first non-empty entry,
so it is the one fetched — the service's own current revision is ignored. -/
theorem currentTaskDefinition_prefers_family (remote : ECSRemote) (options : Options)
    (fam svcName famArn : String) (svcArn : Option String) (t1 t2 : List RemoteCall)
    (hfam : options.taskDefinitionFamily = some fam) (hfne : fam ≠ "")
    (hsvc : options.serviceName = some svcName) (hsne : svcName ≠ "")
    (h1 : getLatestActiveTaskDefinition remote options = (Except.ok (some famArn), t1))
    (hfa : famArn ≠ "")
    (h2 : getServiceTaskDefinition remote options = (Except.ok svcArn, t2)) :
    t1 = [RemoteCall.listTaskDefinitions fam "DESC" "ACTIVE"] ∧
    t2 = [RemoteCall.describeServices options.clusterArn [svcName]] ∧
    currentTaskDefinition remote options =
      ((getTaskDefinition remote famArn).1,
       t1 ++ t2 ++ (getTaskDefinition remote famArn).2) := by
  have hcond : (!truthyStr options.serviceName &&
      !truthyStr options.taskDefinitionFamily) = false := by
    rw [hsvc]
    have ht : truthyStr (some svcName) = true := by
      unfold truthyStr
      exact bne_iff_ne.mpr hsne
    rw [ht]
    rfl
  have harn : firstTruthy [some famArn, svcArn] = some famArn := by
    unfold firstTruthy
    rw [if_neg hfa]
  refine ⟨?_, ?_, ?_⟩
  · have := getLatestActive_trace remote options fam hfam hfne
    rw [h1] at this
    exact this
  · have := getService_trace remote options svcName hsvc hsne
    rw [h2] at this
    exact this
  · exact currentTaskDefinition_found remote options hcond (some famArn) svcArn t1 t2
      famArn h1 h2 harn

/-- Request with BOTH addressing modes set. -/
def bothOptionsEx : Options :=
  { clusterArn := some "arn:cluster", serviceName := some "app",
    taskDefinitionFamily := some "fam", containerNames := ["app"], image := "image:2" }

theorem currentTaskDefinition_prefers_family_witness :
    [RemoteCall.listTaskDefinitions "fam" "DESC" "ACTIVE"] =
      [RemoteCall.listTaskDefinitions "fam" "DESC" "ACTIVE"] ∧
    [RemoteCall.describeServices (some "arn:cluster") ["app"]] =
      [RemoteCall.describeServices bothOptionsEx.clusterArn ["app"]] ∧
    currentTaskDefinition remoteEx bothOptionsEx =
      ((getTaskDefinition remoteEx "arn:fam1").1,
       [RemoteCall.listTaskDefinitions "fam" "DESC" "ACTIVE"] ++
         [RemoteCall.describeServices (some "arn:cluster") ["app"]] ++
         (getTaskDefinition remoteEx "arn:fam1").2) :=
  currentTaskDefinition_prefers_family remoteEx bothOptionsEx "fam" "app" "arn:fam1"
    (some "arn:1") [RemoteCall.listTaskDefinitions "fam" "DESC" "ACTIVE"]
    [RemoteCall.describeServices (some "arn:cluster") ["app"]]
    rfl (by decide) rfl (by decide) (by decide) (by decide) (by decide)
